import Mathlib

/-!
Shallow embedding of `Raw_Data_Crawling/github/run_filtered.py`: a filtered
crawler for Mend.io CVE listings with CWE filtering.  Pure functions of the
script (`has_allowed_cwe`, the extraction logic of `step_one`, the query
derivation and accumulation logic of `step_two`, the retry loop of
`get_soup`) are translated into Lean definitions; the network and the file
system are passed in explicitly as function arguments and optional values.
-/

set_option autoImplicit false

namespace RunFiltered

/-- Python `str.strip()`: drop leading and trailing whitespace. -/
def pyStrip (s : String) : String :=
  String.mk
    (((s.data.dropWhile Char.isWhitespace).reverse.dropWhile
        Char.isWhitespace).reverse)

/-- Replace every non-overlapping occurrence of `old` (non-empty in all the
script's uses) by `new`, scanning left to right; the fuel argument (the
input length at the top call) makes the recursion structural. -/
def replaceAux (old new : List Char) : Nat → List Char → List Char
  | _, [] => []
  | 0, l => l
  | fuel + 1, c :: rest =>
    if old.isPrefixOf (c :: rest) then
      new ++ replaceAux old new fuel (rest.drop (old.length - 1))
    else c :: replaceAux old new fuel rest

/-- Python `s.replace(old, new)` for non-empty `old`. -/
def pyReplace (s old new : String) : String :=
  String.mk (replaceAux old.data new.data s.data.length s.data)

/-- Scan for an occurrence of `pat` at any position. -/
def containsL (pat : List Char) : List Char → Bool
  | [] => pat.isEmpty
  | c :: rest => pat.isPrefixOf (c :: rest) || containsL pat rest

/-- Python `pat in s` (substring containment). -/
def strContains (s pat : String) : Bool :=
  containsL pat.data s.data

/-- The characters after the last occurrence of `sep`:
`l.split(sep)[-1]` for a one-character separator. -/
def lastSegment (sep : Char) (l : List Char) : List Char :=
  l.foldl (fun acc c => if c = sep then [] else acc ++ [c]) []

/-- Digit-run parser: Python `int()` on a non-empty all-digit string. -/
def parseNatL (ds : List Char) : Option Nat :=
  if ds.isEmpty then none
  else if ds.all Char.isDigit then
    some (ds.foldl (fun a c => a * 10 + (c.toNat - '0'.toNat)) 0)
  else none

/-- Python `int(text)` on stripped text: optional sign then digits. -/
def parseIntL : List Char → Option Int
  | '-' :: ds => (parseNatL ds).map (fun n => -(n : Int))
  | '+' :: ds => (parseNatL ds).map (fun n => (n : Int))
  | ds => (parseNatL ds).map (fun n => (n : Int))

/-- The allow-set `ALLOWED_CWE_IDS` from the script (a Python `set` of
numeric strings; membership is all that is used, so a list is faithful). -/
def ALLOWED_CWE_IDS : List String :=
  ["326", "327", "328", "347", "329", "1204", "1240", "780", "757",
   "330", "331", "332", "334", "335", "336", "337", "338", "339", "1241",
   "321", "322", "323", "324", "798",
   "295", "296", "297", "298", "299", "370", "599",
   "319", "523", "1428", "614", "1004", "311", "312", "313", "315", "316", "317", "318",
   "759", "760", "916"]

/-- Attempt to match the regex `CWE-(\d+)` at the head of a character list:
the literal `CWE-` followed by at least one digit; the captured group is the
maximal run of digits after the dash (Python's greedy `\d+`). -/
def cweAt : List Char → Option (List Char)
  | 'C' :: 'W' :: 'E' :: '-' :: rest =>
    let ds := rest.takeWhile Char.isDigit
    if ds.isEmpty then none else some ds
  | _ => none

/-- `re.search(r"CWE-(\d+)", t)` returns the leftmost match: scan positions
left to right and return the first position's captured digit group. -/
def searchCWE : List Char → Option (List Char)
  | [] => none
  | c :: rest =>
    match cweAt (c :: rest) with
    | some ds => some ds
    | none => searchCWE rest

/-- `has_allowed_cwe(cwe_texts)` from the script: true if, for some text,
`re.search(r"CWE-(\d+)", t)` matches and its group 1 is in the allow-set. -/
def has_allowed_cwe (cwe_texts : List String) : Bool :=
  cwe_texts.any (fun t =>
    match searchCWE t.data with
    | some ds => ALLOWED_CWE_IDS.contains (String.mk ds)
    | none => false)

/-- One `tr` of the metrics table: the text of its first `th` and first `td`
(`none` when the row has no such cell; the script then raises on `.text`). -/
structure TableRow where
  th : Option String := none
  td : Option String := none
  deriving Repr, DecidableEq

/-- Abstraction of one parsed detail page (`soup`): exactly the landmarks the
script queries.  `descNoGood`/`descPlain` are the two description `div`
classes, each carrying the text of its first `p` if any; `rangerValue` is the
severity `div` carrying the text of its `label` if any; `referenceRows` and
`lightBoxes` carry, per container `div`, the relevant anchor attributes. -/
structure Doc where
  h4s : List String := []
  descNoGood : Option (Option String) := none
  descPlain : Option (Option String) := none
  referenceRows : List (List String) := []
  rangerValue : Option (Option String) := none
  table : Option (List TableRow) := none
  lightBoxes : List (List String) := []
  deriving Repr, DecidableEq

/-- The `one_res` record the script builds for one item. -/
structure Record where
  q_id : Nat
  cve_id : String
  language : Option String := none
  date : Option String := none
  resources : List String := []
  CWEs : List String := []
  cvss : Option String := none
  description : Option String := none
  AV : Option String := none
  AC : Option String := none
  PR : Option String := none
  UI : Option String := none
  S : Option String := none
  C : Option String := none
  I : Option String := none
  A : Option String := none
  deriving Repr, DecidableEq

/-- The eight metric fields filled from the `table table-report` rows. -/
structure Metrics where
  AV : Option String := none
  AC : Option String := none
  PR : Option String := none
  UI : Option String := none
  S : Option String := none
  C : Option String := none
  I : Option String := none
  A : Option String := none
  deriving Repr, DecidableEq

/-- The `elif` chain over a row's `th`/`td` texts (already stripped). -/
def applyRow (m : Metrics) (th td : String) : Metrics :=
  if strContains th "Attack Vector" then { m with AV := some td }
  else if strContains th "Attack Complexity" then { m with AC := some td }
  else if strContains th "Privileges Required" then { m with PR := some td }
  else if strContains th "User Interaction" then { m with UI := some td }
  else if strContains th "Scope" then { m with S := some td }
  else if strContains th "Confidentiality" then { m with C := some td }
  else if strContains th "Integrity" then { m with I := some td }
  else if strContains th "Availability" then { m with A := some td }
  else m

/-- The row loop over `table.find_all("tr")`.  `tr.find("th").text` (and
likewise for `td`) raises `AttributeError` when the cell is missing, which
the script only catches at the per-item level: modelled as `none`. -/
def procRows (m : Metrics) : List TableRow → Option Metrics
  | [] => some m
  | row :: rest =>
    match row.th, row.td with
    | some th, some td => procRows (applyRow m (pyStrip th) (pyStrip td)) rest
    | _, _ => none

/-- The `h4` scan: last tag containing `"Date:"` sets the date (first
component), last tag containing `"Language:"` sets the language (second). -/
def extractH4 (h4s : List String) : Option String × Option String :=
  h4s.foldl (fun dl t =>
    if strContains t "Date:" then
      (some (pyStrip (pyReplace (pyStrip t) "Date:" "")), dl.2)
    else if strContains t "Language:" then
      (dl.1, some (pyStrip (pyReplace (pyStrip t) "Language:" "")))
    else dl) (none, none)

/-- `desc_div = soup.find(..no-good-to-know) or soup.find(..)`, then the
text of its first `p` if both the div and the `p` exist. -/
def extractDesc (doc : Doc) : Option String :=
  match doc.descNoGood <|> doc.descPlain with
  | some (some ptext) => some (pyStrip ptext)
  | some none => none
  | none => none

/-- `severity_score`: `""` unless the `ranger-value` div and its `label`
both exist. -/
def extractCvss : Option (Option String) → String
  | some (some lbl) => pyStrip lbl
  | some none => ""
  | none => ""

/-- Anchor texts of the `light-box` divs that contain `"CWE"`. -/
def extractCWEs (lightBoxes : List (List String)) : List String :=
  (lightBoxes.map (fun texts => texts.filter (fun t => strContains t "CWE"))).flatten

/-- The field extraction of `step_one`'s loop body for item `i` with
identifier `cve_id`, over one parsed page.  Returns `none` when the metrics
table contains a row without a `th` or `td` cell (the script raises there
and the per-item handler skips the item). -/
def extract (i : Nat) (cve_id : String) (doc : Doc) : Option Record :=
  match procRows {} (doc.table.getD []) with
  | none => none
  | some m =>
    some { q_id := i, cve_id := cve_id,
           language := (extractH4 doc.h4s).2,
           date := (extractH4 doc.h4s).1,
           resources := doc.referenceRows.flatten,
           CWEs := extractCWEs doc.lightBoxes,
           cvss := some (extractCvss doc.rangerValue),
           description := extractDesc doc,
           AV := m.AV, AC := m.AC, PR := m.PR, UI := m.UI,
           S := m.S, C := m.C, I := m.I, A := m.A }

/-- `content[i].strip().split("/")[-1]`. -/
def lastPart (s : String) : String :=
  String.mk (lastSegment '/' (pyStrip s).data)

/-- `prefix + content[i].strip()`. -/
def fullURL (line : String) : String :=
  "https://www.mend.io" ++ pyStrip line

/-- Python truthiness of an optional string field. -/
def truthyOpt : Option String → Bool
  | none => false
  | some s => !(s == "")

/-- The completeness check of lines 259-266: `cve_id`, `language`, `date`
truthy, `resources` and `CWEs` non-empty, `cvss is not None`. -/
def persistFields (r : Record) : Bool :=
  (!(r.cve_id == "")) && truthyOpt r.language && truthyOpt r.date
    && (!r.resources.isEmpty) && (!r.CWEs.isEmpty) && r.cvss.isSome

/-- The loop body of `step_one` for index `i` past the skip check, with the
network as `env : url → Option Doc` (`none` = `get_soup` failed).  Returns
the record appended for index `i`, or `none` when the item is skipped
(fetch failure, extraction exception, filter failure, incomplete fields). -/
def processIndex (env : String → Option Doc) (content : List String) (i : Nat) :
    Option Record :=
  match content.get? i with
  | none => none
  | some line =>
    match env (fullURL line) with
    | none => none
    | some doc =>
      match extract i (lastPart line) doc with
      | none => none
      | some r =>
        if has_allowed_cwe r.CWEs then
          if persistFields r then some r else none
        else none

/-- `already_query_qid`: 0 when the record artifact is absent or empty,
otherwise the `q_id` of its last line. -/
def resumeCursor : Option (List Record) → Nat
  | none => 0
  | some rs =>
    match rs.getLast? with
    | none => 0
    | some r => r.q_id

/-- The records `step_one`'s loop appends to the record artifact, in order:
index `i` is processed only when the skip condition `i <= already_query_qid`
fails. -/
def stepOneAppends (env : String → Option Doc) (content : List String)
    (cursor : Nat) : List Record :=
  (List.range content.length).filterMap (fun i =>
    if i ≤ cursor then none else processIndex env content i)

/-- The link-log indices whose detail page `step_one` attempts to fetch:
exactly those past the skip check. -/
def stepOneFetched (content : List String) (cursor : Nat) : List Nat :=
  (List.range content.length).filter (fun i => !(i ≤ cursor : Bool))

/-- One listing page as the script sees it: the texts of the
`vuln-pagination-item` list items, and the `(text, href)` anchor pairs. -/
structure Page where
  paginationItems : List String := []
  anchors : List (String × String) := []
  deriving Repr, DecidableEq

/-- `int(pagination_items[-2].text.strip())`, defaulting to 1 when the
control is absent, too short, or unparseable (the `except` branch). -/
def parseMaxPage (items : List String) : Int :=
  match items.reverse with
  | _ :: x :: _ =>
    match parseIntL (pyStrip x).data with
    | some n => n
    | none => 1
  | _ => 1

/-- Anchors whose href matches `^/vulnerability-database/CVE`. -/
def pageLinks (p : Page) : List (String × String) :=
  p.anchors.filter (fun a => "/vulnerability-database/CVE".data.isPrefixOf a.2.data)

/-- The listing walk (lines 118-147): fetch page 1 (failure aborts the whole
bucket with no log written, modelled as `none`); parse the max page number;
collect page 1's links; for pages 2..max, a failed fetch contributes no
links.  Returns the hrefs written to the link log, one per line, in
discovery order. -/
def listingWalk (pages : Nat → Option Page) : Option (List String) :=
  match pages 1 with
  | none => none
  | some p1 =>
    let maxp := parseMaxPage p1.paginationItems
    let links :=
      pageLinks p1 ++
        (if maxp > 1 then
          ((List.range' 2 (maxp.toNat - 1)).map (fun i =>
            match pages i with
            | none => []
            | some p => pageLinks p)).flatten
        else [])
    some (links.map Prod.snd)

/-- `step_one` for one bucket: `pages` is the listing fetcher, `env` the
detail fetcher, `logFile` the link log's content if the file exists,
`artifact` the record artifact's records if the file exists.  Result:
`none` when the walk was needed and page 1 failed (early return, nothing
written); otherwise the link log's final content and the records appended
to the record artifact by this run. -/
def step_one (pages : Nat → Option Page) (env : String → Option Doc)
    (logFile : Option (List String)) (artifact : Option (List Record)) :
    Option (List String × List Record) :=
  match logFile with
  | some content =>
    some (content, stepOneAppends env content (resumeCursor artifact))
  | none =>
    match listingWalk pages with
    | none => none
    | some links =>
      some (links, stepOneAppends env links (resumeCursor artifact))

/-- Outcome of one attempt inside `get_soup`: a parsed page, an
`HTTPError` with its status code, a `URLError`, or any other exception. -/
inductive FetchAttempt
  | success (doc : Doc)
  | httpError (code : Nat)
  | urlError
  | otherError
  deriving Repr, DecidableEq

/-- The retry loop of `get_soup`, with the outcome of each attempt given by
`responses`: first argument is the current attempt number, second the
remaining attempts (`max_retries - attempt`). -/
def getSoupFrom (responses : Nat → FetchAttempt) : Nat → Nat → Option Doc
  | _, 0 => none
  | attempt, rem + 1 =>
    match responses attempt with
    | .success d => some d
    | _ => getSoupFrom responses (attempt + 1) rem

/-- `get_soup`: try attempts `0 .. max_retries - 1`; a success returns the
parsed page, exhausting all attempts returns `None`. -/
def get_soup (responses : Nat → FetchAttempt) (max_retries : Nat := 5) :
    Option Doc :=
  getSoupFrom responses 0 max_retries

/-- The sleep performed after a failed attempt, by failure class
(lines 94, 98, 102, 106): `base_delay * 2 ** attempt + jitter` on 403/429,
`attempt * 0.2` on other HTTP errors, `base_delay + attempt` on `URLError`,
`0.2` otherwise.  `jitter` stands for the `random.uniform(0.25, 0.45)`
draw. -/
def attemptSleep (base_delay jitter : Rat) (attempt : Nat) :
    FetchAttempt → Rat
  | .success _ => 0
  | .httpError code =>
    if code = 403 ∨ code = 429 then base_delay * 2 ^ attempt + jitter
    else (attempt : Rat) * (1 / 5)
  | .urlError => base_delay + (attempt : Rat)
  | .otherError => 1 / 5

/-- The JSON object shape `step_two` reads from the secondary API: the
top-level keys it touches, each `none` when absent. -/
structure CommitObj where
  message : Option String := none
  committerDate : Option String := none
  deriving Repr, DecidableEq

/-- Top-level response keys used by `step_two`; `commit.committer.date` is
collapsed into `CommitObj.committerDate` (`none` when any step of that path
is missing). -/
structure ApiData where
  url : Option String := none
  html_url : Option String := none
  commit : Option CommitObj := none
  files : Option (List String) := none
  sha : Option String := none
  deriving Repr, DecidableEq

/-- Outcome of one secondary-API call: `fail` when the `curl` subprocess or
`json.loads` raises (the inner `except` branch), `ok` otherwise. -/
inductive ApiResult
  | fail
  | ok (d : ApiData)
  deriving Repr, DecidableEq

/-- One element of the `fetchs` list `step_two` accumulates. -/
structure FetchEntry where
  url : String
  html_url : String
  message : String
  files : List String
  commit_id : String
  commit_date : String
  deriving Repr, DecidableEq

/-- The query rewrite of lines 290-294. -/
def rewriteQuery (res : String) : String :=
  pyReplace (pyReplace res "/commit/" "/commits/")
    "https://github.com/" "https://api.github.com/repos/"

/-- `querys`: for each record in artifact order, each resource containing
both `"commit"` and `"github"`, rewritten. -/
def deriveQueries (records : List Record) : List String :=
  (records.map (fun r =>
    (r.resources.filter (fun res =>
      strContains res "commit" && strContains res "github")).map rewriteQuery)).flatten

/-- `all(k in data for k in ("url", "html_url", "commit", "files"))`. -/
def keyCheck (d : ApiData) : Bool :=
  d.url.isSome && d.html_url.isSome && d.commit.isSome && d.files.isSome

/-- Building the dict appended to `fetchs` (lines 318-327): looks up
`data["sha"]`, `data["commit"]["message"]` and
`data["commit"]["committer"]["date"]`, none of which are guarded by the
key check, so a missing one raises `KeyError`/`TypeError` (modelled as
`none`), which propagates to the `finally` block. -/
def buildFetch (d : ApiData) : Option FetchEntry :=
  match d.url, d.html_url, d.commit, d.files, d.sha with
  | some u, some h, some c, some fs, some sha =>
    match c.message, c.committerDate with
    | some m, some cd =>
      some { url := u, html_url := h, message := m, files := fs,
             commit_id := sha, commit_date := cd }
    | _, _ => none
  | _, _, _, _, _ => none

/-- What one iteration of the `step_two` loop does with one query:
`skip` = transport/parse failure caught by the inner `except` (continue,
nothing recorded); `good` = all keys present, fetch entry appended;
`bad` = response parsed but a checked key missing (query appended to
`errors`); `raise` = key check passed but `sha`/`commit.message`/
`commit.committer.date` missing, so the dict construction raises out of
the loop. -/
inductive QueryStep
  | skip
  | good (f : FetchEntry)
  | bad
  | raise
  deriving Repr, DecidableEq

/-- Classify one query per the loop body of `step_two` (lines 297-331). -/
def queryStep (api : String → ApiResult) (q : String) : QueryStep :=
  match api q with
  | .fail => .skip
  | .ok d =>
    if keyCheck d then
      match buildFetch d with
      | some f => .good f
      | none => .raise
    else .bad

/-- The query loop of `step_two` with accumulators `fe` (`fetchs`) and `er`
(`errors`); the Bool records whether the loop was interrupted by an
uncaught exception while building a fetch entry (in which case the
accumulated values at that point are what the `finally` block writes). -/
def stepTwoLoop (api : String → ApiResult) :
    List String → List FetchEntry → List String →
      List FetchEntry × List String × Bool
  | [], fe, er => (fe, er, false)
  | q :: qs, fe, er =>
    match queryStep api q with
    | .skip => stepTwoLoop api qs fe er
    | .good f => stepTwoLoop api qs (fe ++ [f]) er
    | .bad => stepTwoLoop api qs fe (er ++ [q])
    | .raise => (fe, er, true)

/-- `step_two` for one bucket: `none` when the record artifact does not
exist (early return, nothing written); otherwise the pair written by the
`finally` block: the enrichment artifact's entries and the error ledger's
lines, whether or not the loop was interrupted. -/
def step_two (api : String → ApiResult) (artifact : Option (List Record)) :
    Option (List FetchEntry × List String) :=
  match artifact with
  | none => none
  | some recs =>
    let r := stepTwoLoop api (deriveQueries recs) [] []
    some (r.1, r.2.1)

/-- A query at which the script raises past the key check: the response
parsed, the four checked keys are present, but `sha`, `commit.message` or
`commit.committer.date` is missing. -/
def raisesAt (api : String → ApiResult) (q : String) : Prop :=
  queryStep api q = .raise

/-- The fetch entries a full (uninterrupted) pass over `qs` accumulates. -/
def goodResults (api : String → ApiResult) (qs : List String) :
    List FetchEntry :=
  qs.filterMap (fun q =>
    match queryStep api q with
    | .good f => some f
    | _ => none)

/-- The queries recorded in the error ledger by a full pass: response
parsed but a checked key missing.  Transport/parse failures are not
recorded. -/
def ledgerQueries (api : String → ApiResult) (qs : List String) :
    List String :=
  qs.filter (fun q =>
    match queryStep api q with
    | .bad => true
    | _ => false)

/-- Spec reading of the filter claim, following its words: the text
contains, somewhere, `CWE-` followed by a (maximal) non-empty digit run
that is a member of the allow-set. -/
def containsAllowedTag (t : String) : Prop :=
  ∃ pre ds post, t.data = pre ++ ('C' :: 'W' :: 'E' :: '-' :: ds) ++ post ∧
    ds ≠ [] ∧ (∀ c ∈ ds, c.isDigit = true) ∧
    (∀ c ∈ post.take 1, c.isDigit = false) ∧
    String.mk ds ∈ ALLOWED_CWE_IDS

/-- The claim's persistence predicate: passes the taxonomy filter; the
identifier, language and published date are present (non-empty text, which
is what the script's truthiness tests check); the reference links and
classification codes are non-empty; the severity score is present
(possibly the empty string). -/
def persistPred (r : Record) : Prop :=
  has_allowed_cwe r.CWEs = true ∧
  r.cve_id ≠ "" ∧
  (∃ s, r.language = some s ∧ s ≠ "") ∧
  (∃ s, r.date = some s ∧ s ≠ "") ∧
  r.resources ≠ [] ∧ r.CWEs ≠ [] ∧ r.cvss ≠ none

/-! Concrete sample inputs used by witnesses and counterexamples. -/

/-- A detail-page href as found in a listing. -/
def lineA : String := "/vulnerability-database/CVE-A"

def lineB : String := "/vulnerability-database/CVE-B"

def lineC : String := "/vulnerability-database/CVE-C"

/-- Link log of the two-page scenario: A, B, C in discovery order. -/
def logC2 : List String := [lineA, lineB, lineC]

/-- A complete detail page whose classification code is in the allow-set. -/
def docA : Doc :=
  { h4s := ["Date: 2024-01-01", "Language: C++"],
    referenceRows := [["https://github.com/o/r/commit/abc"]],
    rangerValue := some (some "9.8"),
    lightBoxes := [["CWE-798 (Use of Hard-coded Credentials)"]] }

/-- A complete detail page whose classification code is outside the
allow-set. -/
def docB : Doc :=
  { h4s := ["Date: 2024-01-02", "Language: PHP"],
    referenceRows := [["https://example.com/advisory"]],
    rangerValue := some (some "6.1"),
    lightBoxes := [["CWE-79"]] }

/-- The record the script builds from `docA` at sequence index 0. -/
def recA : Record :=
  { q_id := 0, cve_id := "CVE-A",
    language := some "C++", date := some "2024-01-01",
    resources := ["https://github.com/o/r/commit/abc"],
    CWEs := ["CWE-798 (Use of Hard-coded Credentials)"],
    cvss := some "9.8" }

/-- A detail page whose metrics table has a row without a `th` cell: the
script raises `AttributeError` on `tr.find("th").text` there. -/
def badDoc : Doc :=
  { h4s := ["Date: 2024-01-01", "Language: C++"],
    referenceRows := [["https://github.com/o/r/commit/abc"]],
    rangerValue := some (some "9.8"),
    table := some [{ th := none, td := some "High" }],
    lightBoxes := [["CWE-798 (Use of Hard-coded Credentials)"]] }

/-- Page 1 of the scenario listing: items A and B, max page 2. -/
def pageOne : Page :=
  { paginationItems := ["1", "2", "next"],
    anchors := [("A", lineA), ("B", lineB)] }

/-- Page 2 of the scenario listing: item C. -/
def pageTwo : Page :=
  { paginationItems := ["1", "2", "next"],
    anchors := [("C", lineC)] }

/-- The scenario's listing fetcher. -/
def pagesC2 : Nat → Option Page := fun n =>
  if n = 1 then some pageOne else if n = 2 then some pageTwo else none

/-- A listing fetcher for which every page fetch fails. -/
def pagesDead : Nat → Option Page := fun _ => none

/-- The scenario's detail fetcher: A and B resolve, C fails all retries. -/
def envC2 : String → Option Doc := fun u =>
  if u = fullURL lineA then some docA
  else if u = fullURL lineB then some docB
  else none

/-- A detail fetcher for which every fetch fails. -/
def envNone : String → Option Doc := fun _ => none

/-- A persisted record carrying one GitHub commit reference link. -/
def recG : Record :=
  { q_id := 0, cve_id := "CVE-G",
    resources := ["https://github.com/o/r/commit/abc"] }

/-- The enrichment query derived from `recG`'s reference link. -/
def qG : String := "https://api.github.com/repos/o/r/commits/abc"

/-- A secondary API for which every call fails at the transport/parse
level. -/
def apiFailAll : String → ApiResult := fun _ => .fail

/-- A secondary API whose responses carry the four checked keys but no
`sha`: the key check passes and building the fetch entry raises. -/
def apiRaise : String → ApiResult := fun _ =>
  .ok { url := some "u", html_url := some "h", commit := some {}, files := some [] }

/-- A network that answers every attempt with HTTP 429. -/
def resp429 : Nat → FetchAttempt := fun _ => .httpError 429

/-! Theorems. -/

/-- `re.search` semantics of the model: `searchCWE` returns exactly the
leftmost position's captured group. -/
theorem searchCWE_eq_some (l ds : List Char) :
    searchCWE l = some ds ↔
      ∃ j, (∀ j' < j, cweAt (l.drop j') = none) ∧ cweAt (l.drop j) = some ds := by
  induction l with
  | nil =>
    constructor
    · intro h; cases h
    · rintro ⟨j, -, hj⟩
      rw [List.drop_nil] at hj
      simp [cweAt] at hj
  | cons c rest ih =>
    cases hc : cweAt (c :: rest) with
    | some ds0 =>
      simp only [searchCWE, hc]
      constructor
      · intro h
        injection h with h
        subst h
        exact ⟨0, fun j' hj' => absurd hj' (Nat.not_lt_zero j'),
          by rw [List.drop_zero]; exact hc⟩
      · rintro ⟨j, hlt, hj⟩
        cases j with
        | zero => rw [List.drop_zero, hc] at hj; exact hj
        | succ k =>
          have h0 := hlt 0 (Nat.succ_pos k)
          rw [List.drop_zero, hc] at h0
          cases h0
    | none =>
      simp only [searchCWE, hc]
      rw [ih]
      constructor
      · rintro ⟨j, hlt, hj⟩
        refine ⟨j + 1, ?_, ?_⟩
        · intro j' hj'
          cases j' with
          | zero => rw [List.drop_zero]; exact hc
          | succ k =>
            rw [List.drop_succ_cons]
            exact hlt k (Nat.lt_of_succ_lt_succ hj')
        · rw [List.drop_succ_cons]; exact hj
      · rintro ⟨j, hlt, hj⟩
        cases j with
        | zero => rw [List.drop_zero, hc] at hj; cases hj
        | succ k =>
          refine ⟨k, ?_, ?_⟩
          · intro j' hj'
            have := hlt (j' + 1) (Nat.succ_lt_succ hj')
            rwa [List.drop_succ_cons] at this
          · rwa [List.drop_succ_cons] at hj

/-- C4 counterexample: the claim reads "some code text contains an embedded
numeric tag that is a member of the allow-set"; the text
`"CWE-79 CWE-798"` contains the embedded allow-set tag `798`, but
`has_allowed_cwe` only consults the leftmost match (`79`) and returns
false. -/
theorem c4_counterexample :
    has_allowed_cwe ["CWE-79 CWE-798"] = false ∧
    containsAllowedTag "CWE-79 CWE-798" := by
  constructor
  · decide
  · exact ⟨"CWE-79 ".data, "798".data, [], by decide, by decide, by decide,
      by decide, by decide⟩

/-- C4 (amended): `has_allowed_cwe` returns true iff some code text's
LEFTMOST embedded `CWE-<digits>` tag is in the allow-set; in particular
`["CWE-79"]` yields false and
`["CWE-798 (Use of Hard-coded Credentials)"]` yields true. -/
theorem c4_filter_first_match (texts : List String) :
    (has_allowed_cwe texts = true ↔
      ∃ t ∈ texts, ∃ j ds, (∀ j' < j, cweAt (t.data.drop j') = none) ∧
        cweAt (t.data.drop j) = some ds ∧ String.mk ds ∈ ALLOWED_CWE_IDS) ∧
    has_allowed_cwe ["CWE-79"] = false ∧
    has_allowed_cwe ["CWE-798 (Use of Hard-coded Credentials)"] = true := by
  refine ⟨?_, by decide, by decide⟩
  unfold has_allowed_cwe
  rw [List.any_eq_true]
  constructor
  · rintro ⟨t, ht, hp⟩
    refine ⟨t, ht, ?_⟩
    cases hs : searchCWE t.data with
    | none => rw [hs] at hp; cases hp
    | some ds =>
      rw [hs] at hp
      obtain ⟨j, hlt, hj⟩ := (searchCWE_eq_some t.data ds).mp hs
      exact ⟨j, ds, hlt, hj, by simpa using hp⟩
  · rintro ⟨t, ht, j, ds, hlt, hj, hmem⟩
    refine ⟨t, ht, ?_⟩
    have hs : searchCWE t.data = some ds := (searchCWE_eq_some t.data ds).mpr ⟨j, hlt, hj⟩
    rw [hs]
    simpa using hmem

/-- The record built for index `i` carries `q_id = i`. -/
theorem extract_q_id {i : Nat} {cid : String} {doc : Doc} {r : Record}
    (h : extract i cid doc = some r) : r.q_id = i := by
  unfold extract at h
  cases hp : procRows {} (doc.table.getD []) with
  | none => simp only [hp] at h; exact Option.noConfusion h
  | some m =>
    simp only [hp] at h
    injection h with h
    subst h
    rfl

/-- An appended record passed the filter and the completeness check, and
its `q_id` is its link-log index. -/
theorem processIndex_spec {env : String → Option Doc} {content : List String}
    {i : Nat} {r : Record} (h : processIndex env content i = some r) :
    r.q_id = i ∧ has_allowed_cwe r.CWEs = true ∧ persistFields r = true := by
  unfold processIndex at h
  cases hg : content.get? i with
  | none => simp only [hg] at h; exact Option.noConfusion h
  | some line =>
    simp only [hg] at h
    cases he : env (fullURL line) with
    | none => simp only [he] at h; exact Option.noConfusion h
    | some doc =>
      simp only [he] at h
      cases hx : extract i (lastPart line) doc with
      | none => simp only [hx] at h; exact Option.noConfusion h
      | some r0 =>
        simp only [hx] at h
        by_cases h1 : has_allowed_cwe r0.CWEs = true
        · rw [if_pos h1] at h
          by_cases h2 : persistFields r0 = true
          · rw [if_pos h2] at h
            injection h with h
            subst h
            exact ⟨extract_q_id hx, h1, h2⟩
          · rw [if_neg h2] at h; cases h
        · rw [if_neg h1] at h; cases h

/-- Membership in the run's appended records comes from a processed index
past the cursor. -/
theorem mem_stepOneAppends {env : String → Option Doc} {content : List String}
    {cursor : Nat} {r : Record} (h : r ∈ stepOneAppends env content cursor) :
    ∃ i, cursor < i ∧ processIndex env content i = some r := by
  unfold stepOneAppends at h
  rw [List.mem_filterMap] at h
  obtain ⟨i, -, hi⟩ := h
  by_cases hic : i ≤ cursor
  · rw [if_pos hic] at hi; cases hi
  · rw [if_neg hic] at hi
    exact ⟨i, Nat.not_le.mp hic, hi⟩

/-- Skipping up to `k` is the same as running from scratch and keeping the
records with `q_id > k`, for any index-respecting producer. -/
theorem filterMap_skip (l : List Nat) (f : Nat → Option Record) (k : Nat)
    (hf : ∀ i r, f i = some r → r.q_id = i) :
    l.filterMap (fun i => if i ≤ k then none else f i) =
      (l.filterMap (fun i => if i ≤ 0 then none else f i)).filter
        (fun r => decide (k < r.q_id)) := by
  induction l with
  | nil => rfl
  | cons i rest ih =>
    simp only [List.filterMap_cons]
    by_cases hik : i ≤ k
    · rw [if_pos hik]
      by_cases hi0 : i ≤ 0
      · rw [if_pos hi0]
        exact ih
      · rw [if_neg hi0]
        cases hfi : f i with
        | none => exact ih
        | some r =>
          have hq : r.q_id = i := hf i r hfi
          simp only [List.filter_cons, hq, decide_eq_true_eq]
          rw [if_neg (Nat.not_lt.mpr hik)]
          exact ih
    · rw [if_neg hik]
      have hi0 : ¬ i ≤ 0 := fun h0 => hik (Nat.le_trans h0 (Nat.zero_le k))
      rw [if_neg hi0]
      cases hfi : f i with
      | none => exact ih
      | some r =>
        have hq : r.q_id = i := hf i r hfi
        simp only [List.filter_cons, hq, decide_eq_true_eq]
        rw [if_pos (Nat.not_le.mp hik)]
        rw [ih]

/-- C1: when the record artifact ends with a record of sequence index `k`,
re-running `step_one` over the same link log uses cursor `k`, never fetches
an index `≤ k`, appends no record with index `≤ k`, and appends for the
indices `> k` exactly the records a clean run (cursor 0) over the same log
and markup would have produced for those indices. -/
theorem c1_resume_idempotent (env : String → Option Doc)
    (content : List String) (artifact : List Record) (k : Nat)
    (hlast : (artifact.getLast?).map Record.q_id = some k) :
    resumeCursor (some artifact) = k ∧
    (∀ i, i ≤ k → i ∉ stepOneFetched content k) ∧
    (∀ r ∈ stepOneAppends env content k, k < r.q_id) ∧
    stepOneAppends env content k =
      (stepOneAppends env content 0).filter (fun r => decide (k < r.q_id)) := by
  refine ⟨?_, ?_, ?_, ?_⟩
  · have hdef : resumeCursor (some artifact) =
        (match artifact.getLast? with
         | none => 0
         | some r => r.q_id) := rfl
    rw [hdef]
    cases hg : artifact.getLast? with
    | none => rw [hg] at hlast; cases hlast
    | some r =>
      rw [hg] at hlast
      injection hlast with h2
  · intro i hik hmem
    unfold stepOneFetched at hmem
    rw [List.mem_filter] at hmem
    have := hmem.2
    simp only [Bool.not_eq_true'] at this
    rw [decide_eq_false_iff_not] at this
    exact this hik
  · intro r hr
    obtain ⟨i, hki, hpi⟩ := mem_stepOneAppends hr
    have := (processIndex_spec hpi).1
    omega
  · exact filterMap_skip _ _ k (fun i r h => (processIndex_spec h).1)

/-- C1 witness at a concrete artifact ending with `q_id = 0`, a two-line
log and an all-failing detail fetcher. -/
theorem c1_witness :
    ((([recG]).getLast?).map Record.q_id = some 0) ∧
    (resumeCursor (some [recG]) = 0 ∧
     (∀ i, i ≤ 0 → i ∉ stepOneFetched logC2 0) ∧
     (∀ r ∈ stepOneAppends envNone logC2 0, 0 < r.q_id) ∧
     stepOneAppends envNone logC2 0 =
       (stepOneAppends envNone logC2 0).filter (fun r => decide (0 < r.q_id))) :=
  ⟨by decide, c1_resume_idempotent envNone logC2 [recG] 0 (by decide)⟩

/-- C3: when the record artifact is absent or empty, the cursor defaults to
0, the skip condition holds at index 0, and the item at sequence index 0 is
neither fetched nor persisted. -/
theorem c3_fresh_run_skips_index_zero (env : String → Option Doc)
    (content : List String) (artifact : Option (List Record))
    (h : artifact = none ∨ artifact = some []) :
    resumeCursor artifact = 0 ∧
    decide (0 ≤ resumeCursor artifact) = true ∧
    0 ∉ stepOneFetched content (resumeCursor artifact) ∧
    ∀ r ∈ stepOneAppends env content (resumeCursor artifact), r.q_id ≠ 0 := by
  have hc : resumeCursor artifact = 0 := by
    rcases h with h | h <;> subst h <;> rfl
  refine ⟨hc, by simp, ?_, ?_⟩
  · rw [hc]
    intro hmem
    unfold stepOneFetched at hmem
    rw [List.mem_filter] at hmem
    simp at hmem
  · intro r hr
    rw [hc] at hr
    obtain ⟨i, hki, hpi⟩ := mem_stepOneAppends hr
    have := (processIndex_spec hpi).1
    omega

/-- C3 witness: fresh bucket (no artifact), three-line log. -/
theorem c3_witness :
    ((none : Option (List Record)) = none ∨ (none : Option (List Record)) = some []) ∧
    (resumeCursor (none : Option (List Record)) = 0 ∧
     decide (0 ≤ resumeCursor (none : Option (List Record))) = true ∧
     0 ∉ stepOneFetched logC2 (resumeCursor (none : Option (List Record))) ∧
     ∀ r ∈ stepOneAppends envC2 logC2 (resumeCursor (none : Option (List Record))),
       r.q_id ≠ 0) :=
  ⟨Or.inl rfl, c3_fresh_run_skips_index_zero envC2 logC2 none (Or.inl rfl)⟩

/-- The claim's persistence predicate coincides with the script's gate
(filter plus completeness check). -/
theorem persistPred_iff (r : Record) :
    persistPred r ↔ (has_allowed_cwe r.CWEs && persistFields r) = true := by
  unfold persistPred persistFields truthyOpt
  cases hl : r.language <;> cases hd : r.date <;> cases hc : r.cvss <;>
    simp [List.isEmpty_iff, and_assoc]

/-- C5: a record whose detail page was fetched and extracted is appended to
the record artifact iff it passes the taxonomy filter and all required
fields are present (identifier, language, date non-empty; reference links
and classification codes non-empty; severity score present, possibly
empty); consequently every appended record satisfies the predicate. -/
theorem c5_completeness_gate (env : String → Option Doc) (content : List String)
    (cursor i : Nat) (line : String) (doc : Doc) (r : Record)
    (hline : content.get? i = some line)
    (henv : env (fullURL line) = some doc)
    (hext : extract i (lastPart line) doc = some r) :
    (processIndex env content i = some r ↔ persistPred r) ∧
    ∀ r' ∈ stepOneAppends env content cursor, persistPred r' := by
  constructor
  · rw [persistPred_iff]
    constructor
    · intro h
      have hs := processIndex_spec h
      rw [hs.2.1, hs.2.2]
      rfl
    · intro h
      obtain ⟨h1, h2⟩ := Bool.and_eq_true_iff.mp h
      simp only [processIndex, hline, henv, hext]
      rw [if_pos h1, if_pos h2]
  · intro r' hr'
    obtain ⟨j, -, hpj⟩ := mem_stepOneAppends hr'
    have hs := processIndex_spec hpj
    rw [persistPred_iff, hs.2.1, hs.2.2]
    rfl

/-- C5 witness: the scenario's item A is extracted, complete, passes the
filter and is appended. -/
theorem c5_witness :
    logC2.get? 0 = some lineA ∧ envC2 (fullURL lineA) = some docA ∧
    extract 0 (lastPart lineA) docA = some recA ∧
    ((processIndex envC2 logC2 0 = some recA ↔ persistPred recA) ∧
     ∀ r' ∈ stepOneAppends envC2 logC2 0, persistPred r') :=
  ⟨by decide, by decide, by decide,
   c5_completeness_gate envC2 logC2 0 0 lineA docA recA (by decide) (by decide)
     (by decide)⟩

/-- The metrics-row loop succeeds on every table whose rows all carry both
cells. -/
theorem procRows_total (rows : List TableRow) :
    ∀ m, (∀ row ∈ rows, row.th ≠ none ∧ row.td ≠ none) →
      ∃ m', procRows m rows = some m' := by
  induction rows with
  | nil => exact fun m _ => ⟨m, rfl⟩
  | cons row rest ih =>
    intro m h
    obtain ⟨hth, htd⟩ := h row (List.mem_cons_self row rest)
    cases hth' : row.th with
    | none => exact absurd hth' hth
    | some th =>
      cases htd' : row.td with
      | none => exact absurd htd' htd
      | some td =>
        obtain ⟨m', hm'⟩ := ih (applyRow m (pyStrip th) (pyStrip td))
          (fun r hr => h r (List.mem_cons_of_mem row hr))
        refine ⟨m', ?_⟩
        unfold procRows
        rw [hth', htd']
        exact hm'

/-- C7 counterexample: a detail page whose metrics table contains a row
without a `th` cell makes extraction abort (the script raises
`AttributeError` on `tr.find("th").text`), contradicting "no shape of
input document causes extraction to abort". -/
theorem c7_counterexample : extract 0 "CVE-X" badDoc = none := by decide

/-- C7 (amended): extraction never aborts on a document whose metrics-table
rows all carry both a header and a value cell — in particular whenever the
table is absent; and every landmark missing from the document leaves the
corresponding field at its default (the fully-empty document yields the
all-default record, with severity score the empty string). -/
theorem c7_missing_landmarks_default (i : Nat) (cid : String) (doc : Doc)
    (h : ∀ row ∈ doc.table.getD [], row.th ≠ none ∧ row.td ≠ none) :
    (∃ r, extract i cid doc = some r) ∧
    extract i cid {} = some { q_id := i, cve_id := cid, cvss := some "" } := by
  constructor
  · obtain ⟨m, hm⟩ := procRows_total (doc.table.getD []) {} h
    refine ⟨{ q_id := i, cve_id := cid,
              language := (extractH4 doc.h4s).2, date := (extractH4 doc.h4s).1,
              resources := doc.referenceRows.flatten,
              CWEs := extractCWEs doc.lightBoxes,
              cvss := some (extractCvss doc.rangerValue),
              description := extractDesc doc,
              AV := m.AV, AC := m.AC, PR := m.PR, UI := m.UI,
              S := m.S, C := m.C, I := m.I, A := m.A }, ?_⟩
    unfold extract
    rw [hm]
  · rfl

/-- C7 witness: `docA` (no metrics table) extracts without aborting. -/
theorem c7_witness :
    (∀ row ∈ docA.table.getD [], row.th ≠ none ∧ row.td ≠ none) ∧
    ((∃ r, extract 0 "CVE-A" docA = some r) ∧
     extract 0 "CVE-A" {} = some { q_id := 0, cve_id := "CVE-A", cvss := some "" }) :=
  ⟨fun row hr => absurd hr (List.not_mem_nil row),
   c7_missing_landmarks_default 0 "CVE-A" docA
     (fun row hr => absurd hr (List.not_mem_nil row))⟩

/-- C6: under consecutive 403/429 responses the per-attempt sleep, with the
jitter term set to 0, strictly increases with the attempt number below the
ceiling, and exhausting the (default) 5 attempts makes `get_soup` return
`None` instead of retrying further. -/
theorem c6_backoff_monotone_terminates (base_delay : Rat) (a b : Nat)
    (responses : Nat → FetchAttempt)
    (hbase : 0 < base_delay) (hab : a < b) (hb : b < 5)
    (hfail : ∀ attempt, attempt < 5 →
      responses attempt = .httpError 403 ∨ responses attempt = .httpError 429) :
    attemptSleep base_delay 0 a (responses a) <
      attemptSleep base_delay 0 b (responses b) ∧
    get_soup responses 5 = none := by
  constructor
  · have hpow : (2 : Rat) ^ a < 2 ^ b := by
      gcongr
      · norm_num
    have hmul : base_delay * 2 ^ a < base_delay * 2 ^ b :=
      mul_lt_mul_of_pos_left hpow hbase
    have hsa : attemptSleep base_delay 0 a (responses a) = base_delay * 2 ^ a := by
      rcases hfail a (lt_trans hab hb) with h | h <;> rw [h] <;>
        simp [attemptSleep]
    have hsb : attemptSleep base_delay 0 b (responses b) = base_delay * 2 ^ b := by
      rcases hfail b hb with h | h <;> rw [h] <;> simp [attemptSleep]
    rw [hsa, hsb]
    exact hmul
  · have key : ∀ rem start, (∀ j, j < rem → ∀ d, responses (start + j) ≠ .success d) →
        getSoupFrom responses start rem = none := by
      intro rem
      induction rem with
      | zero => exact fun start _ => rfl
      | succ k ih =>
        intro start h
        have h' : ∀ j, j < k → ∀ d, responses (start + 1 + j) ≠ .success d := by
          intro j hj d
          have hh := h (j + 1) (Nat.succ_lt_succ hj) d
          rwa [show start + (j + 1) = start + 1 + j by omega] at hh
        unfold getSoupFrom
        cases hr : responses start with
        | success d => exact absurd hr (by simpa using h 0 (Nat.succ_pos k) d)
        | httpError code => exact ih (start + 1) h'
        | urlError => exact ih (start + 1) h'
        | otherError => exact ih (start + 1) h'
    exact key 5 0 (fun j hj d => by
      rcases hfail j (by simpa using hj) with h | h <;> simp [h])

/-- C6 witness: base delay 1/2, attempts 0 and 1, every attempt answered
with HTTP 429. -/
theorem c6_witness :
    ((0 : Rat) < 1 / 2) ∧ 0 < 1 ∧ 1 < 5 ∧
    (∀ attempt, attempt < 5 →
      resp429 attempt = .httpError 403 ∨ resp429 attempt = .httpError 429) ∧
    (attemptSleep (1 / 2) 0 0 (resp429 0) < attemptSleep (1 / 2) 0 1 (resp429 1) ∧
     get_soup resp429 5 = none) :=
  ⟨by norm_num, by decide, by decide, fun _ _ => Or.inr rfl,
   c6_backoff_monotone_terminates (1 / 2) 0 1 resp429 (by norm_num) (by decide)
     (by decide) (fun _ _ => Or.inr rfl)⟩

/-- C2 evaluation at the spec's end-to-end scenario (clean run: no link
log, no record artifact; page 1 yields A and B, page 2 yields C; B fails
the taxonomy filter; C's detail fetch fails all retries): the link log
receives the three lines A, B, C in order, but the record artifact receives
NO record — the fresh-run cursor 0 makes the loop skip sequence index 0, so
A is never fetched — although processing index 0 would have produced the
complete, filter-passing record `recA`. -/
theorem c2_scenario_eval :
    step_one pagesC2 envC2 none none = some (logC2, []) ∧
    processIndex envC2 logC2 0 = some recA ∧
    persistPred recA := by
  refine ⟨by decide, by decide, ?_⟩
  rw [persistPred_iff]
  decide

/-- Uninterrupted runs of the `step_two` loop: the accumulators receive the
successful fetch entries and the key-check failures, in order. -/
theorem stepTwoLoop_no_raise (api : String → ApiResult) (qs : List String) :
    ∀ fe er, (∀ q ∈ qs, ¬ raisesAt api q) →
      stepTwoLoop api qs fe er =
        (fe ++ goodResults api qs, er ++ ledgerQueries api qs, false) := by
  induction qs with
  | nil =>
    intro fe er _
    simp [stepTwoLoop, goodResults, ledgerQueries]
  | cons q rest ih =>
    intro fe er h
    have hrest : ∀ q' ∈ rest, ¬ raisesAt api q' :=
      fun q' hq' => h q' (List.mem_cons_of_mem q hq')
    unfold stepTwoLoop
    cases hs : queryStep api q with
    | skip =>
      rw [ih fe er hrest]
      simp [goodResults, ledgerQueries, List.filterMap_cons, List.filter_cons, hs]
    | good f =>
      show stepTwoLoop api rest (fe ++ [f]) er = _
      rw [ih (fe ++ [f]) er hrest]
      simp [goodResults, ledgerQueries, List.filterMap_cons, List.filter_cons,
        hs, List.append_assoc]
    | bad =>
      rw [ih fe (er ++ [q]) hrest]
      simp [goodResults, ledgerQueries, List.filterMap_cons, List.filter_cons,
        hs, List.append_assoc]
    | raise => exact absurd hs (h q (List.mem_cons_self q rest))

/-- Interrupted runs of the `step_two` loop: processing stops at the first
query whose success path raises, with the accumulators holding exactly the
results of the queries before it. -/
theorem stepTwoLoop_raise (api : String → ApiResult) (l₁ : List String)
    (q : String) (l₂ : List String) :
    ∀ fe er, (∀ q' ∈ l₁, ¬ raisesAt api q') → raisesAt api q →
      stepTwoLoop api (l₁ ++ q :: l₂) fe er =
        (fe ++ goodResults api l₁, er ++ ledgerQueries api l₁, true) := by
  induction l₁ with
  | nil =>
    intro fe er _ hq
    rw [List.nil_append]
    unfold stepTwoLoop
    rw [raisesAt] at hq
    rw [hq]
    simp [goodResults, ledgerQueries]
  | cons p rest ih =>
    intro fe er h hq
    have hrest : ∀ q' ∈ rest, ¬ raisesAt api q' :=
      fun q' hq' => h q' (List.mem_cons_of_mem p hq')
    have hp := h p (List.mem_cons_self p rest)
    rw [List.cons_append]
    unfold stepTwoLoop
    cases hs : queryStep api p with
    | skip =>
      rw [ih fe er hrest hq]
      simp [goodResults, ledgerQueries, List.filterMap_cons, List.filter_cons, hs]
    | good f =>
      show stepTwoLoop api (rest ++ q :: l₂) (fe ++ [f]) er = _
      rw [ih (fe ++ [f]) er hrest hq]
      simp [goodResults, ledgerQueries, List.filterMap_cons, List.filter_cons,
        hs, List.append_assoc]
    | bad =>
      rw [ih fe (er ++ [p]) hrest hq]
      simp [goodResults, ledgerQueries, List.filterMap_cons, List.filter_cons,
        hs, List.append_assoc]
    | raise => exact absurd hs hp

/-- C8 counterexample: a single derived query whose API call fails at the
transport/parse level is NOT recorded in the error ledger — the ledger is
written empty (the script's inner `except` only prints and continues),
contradicting "the error ledger contains exactly the original URLs of all
queries that failed for either reason". -/
theorem c8_counterexample :
    deriveQueries [recG] = [qG] ∧
    apiFailAll qG = .fail ∧
    step_two apiFailAll (some [recG]) = some ([], []) :=
  ⟨by decide, rfl, by decide⟩

/-- C8 (amended): when no query's success path raises, the batch never
aborts and the error ledger holds exactly the original URLs of the queries
whose response parsed but missed one of the four checked keys, in order;
transport/parse failures are only logged and skipped, never recorded in
the ledger. -/
theorem c8_error_ledger (api : String → ApiResult) (recs : List Record)
    (h : ∀ q ∈ deriveQueries recs, ¬ raisesAt api q) :
    step_two api (some recs) =
      some (goodResults api (deriveQueries recs),
            ledgerQueries api (deriveQueries recs)) ∧
    ∀ q ∈ ledgerQueries api (deriveQueries recs),
      ∃ d, api q = .ok d ∧ keyCheck d = false := by
  constructor
  · have hdef : step_two api (some recs) =
        some ((stepTwoLoop api (deriveQueries recs) [] []).1,
              (stepTwoLoop api (deriveQueries recs) [] []).2.1) := rfl
    rw [hdef, stepTwoLoop_no_raise api (deriveQueries recs) [] [] h]
    simp
  · intro q hq
    unfold ledgerQueries at hq
    rw [List.mem_filter] at hq
    have h2 := hq.2
    cases hs : queryStep api q with
    | skip => simp [hs] at h2
    | good f => simp [hs] at h2
    | raise => simp [hs] at h2
    | bad =>
      unfold queryStep at hs
      cases ha : api q with
      | fail => simp only [ha] at hs; cases hs
      | ok d =>
        simp only [ha] at hs
        by_cases hk : keyCheck d = true
        · rw [if_pos hk] at hs
          cases hb : buildFetch d with
          | some f => simp [hb] at hs
          | none => simp [hb] at hs
        · exact ⟨d, rfl, by simpa using hk⟩

/-- C8 witness: all-transport-failing API over the one derived query. -/
theorem c8_witness :
    (∀ q ∈ deriveQueries [recG], ¬ raisesAt apiFailAll q) ∧
    (step_two apiFailAll (some [recG]) =
       some (goodResults apiFailAll (deriveQueries [recG]),
             ledgerQueries apiFailAll (deriveQueries [recG])) ∧
     ∀ q ∈ ledgerQueries apiFailAll (deriveQueries [recG]),
       ∃ d, apiFailAll q = .ok d ∧ keyCheck d = false) :=
  ⟨fun _ _ h => QueryStep.noConfusion h,
   c8_error_ledger apiFailAll [recG] (fun _ _ h => QueryStep.noConfusion h)⟩

/-- C9: `step_two` returns immediately, writing nothing, when the record
artifact does not exist; otherwise both the enrichment artifact and the
error ledger are always written: with everything accumulated on a clean
pass, and, when an exception interrupts the loop at a raising query, with
exactly the successes and failures accumulated before that query. -/
theorem c9_write_on_exit (api : String → ApiResult) (recs : List Record) :
    step_two api none = none ∧
    (∃ fe er, step_two api (some recs) = some (fe, er)) ∧
    ((∀ q ∈ deriveQueries recs, ¬ raisesAt api q) →
      step_two api (some recs) =
        some (goodResults api (deriveQueries recs),
              ledgerQueries api (deriveQueries recs))) ∧
    (∀ l₁ q l₂, deriveQueries recs = l₁ ++ q :: l₂ →
      (∀ q' ∈ l₁, ¬ raisesAt api q') → raisesAt api q →
        step_two api (some recs) =
          some (goodResults api l₁, ledgerQueries api l₁)) := by
  refine ⟨rfl, ⟨_, _, rfl⟩, ?_, ?_⟩
  · intro h
    exact (c8_error_ledger api recs h).1
  · intro l₁ q l₂ hsplit h1 hq
    have hdef : step_two api (some recs) =
        some ((stepTwoLoop api (deriveQueries recs) [] []).1,
              (stepTwoLoop api (deriveQueries recs) [] []).2.1) := rfl
    rw [hdef, hsplit, stepTwoLoop_raise api l₁ q l₂ [] [] h1 hq]
    simp

/-- C9 witness: the API whose responses pass the key check but miss `sha`
interrupts the loop at the first query; both artifacts are still written,
empty; and no artifact yields no write. -/
theorem c9_witness :
    step_two apiRaise (some [recG]) = some ([], []) ∧
    step_two apiRaise none = none := by
  have h := c9_write_on_exit apiRaise [recG]
  refine ⟨?_, h.1⟩
  have hd := h.2.2.2 [] qG [] (by decide)
    (fun q hq => absurd hq (List.not_mem_nil q)) rfl
  exact hd

/-- C10 counterexample: with the link log absent the walk runs, but when
page 1's fetch fails `step_one` returns early with NO log written at all
(the whole bucket is skipped for this run), contradicting "a failed page
fetch only omits that page's links, and the log is written exactly once".
The claim holds only for pages 2 and beyond. -/
theorem c10_counterexample :
    listingWalk pagesDead = none ∧ step_one pagesDead envC2 none none = none :=
  ⟨rfl, rfl⟩

/-- C10 (amended): the walk runs only when the link log is absent (its
presence makes the run's outcome independent of the listing fetcher); the
max page number defaults to 1 when the pagination control is absent, too
short, or unparseable; when page 1's fetch succeeds the log is written
once, in discovery order, with a failed fetch of any page ≥ 2 contributing
no links; when page 1's fetch fails, no log is written and the bucket is
skipped for this run. -/
theorem c10_listing_walk (pages pages2 : Nat → Option Page)
    (env : String → Option Doc) (content : List String)
    (artifact : Option (List Record)) (p1 : Page)
    (hp1 : pages 1 = some p1) :
    step_one pages env (some content) artifact =
      step_one pages2 env (some content) artifact ∧
    (∀ items : List String,
      (∀ x, items.reverse.get? 1 = some x → parseIntL (pyStrip x).data = none) →
        parseMaxPage items = 1) ∧
    listingWalk pages = some
      ((pageLinks p1 ++
        (if parseMaxPage p1.paginationItems > 1 then
          ((List.range' 2 ((parseMaxPage p1.paginationItems).toNat - 1)).map
            (fun i =>
              match pages i with
              | none => []
              | some p => pageLinks p)).flatten
        else [])).map Prod.snd) ∧
    (∀ pages3 : Nat → Option Page, pages3 1 = none →
      listingWalk pages3 = none ∧ step_one pages3 env none artifact = none) := by
  refine ⟨rfl, ?_, ?_, ?_⟩
  · intro items hitems
    unfold parseMaxPage
    cases hrev : items.reverse with
    | nil => rfl
    | cons a t =>
      cases t with
      | nil => rfl
      | cons x t2 =>
        have hx := hitems x (by rw [hrev]; rfl)
        simp only [hx]
  · unfold listingWalk
    rw [hp1]
  · intro pages3 h3
    constructor
    · unfold listingWalk
      rw [h3]
    · unfold step_one listingWalk
      rw [h3]

/-- C10 witness: the two-page scenario listing walked from scratch yields
the log A, B, C. -/
theorem c10_witness :
    pagesC2 1 = some pageOne ∧ listingWalk pagesC2 = some logC2 := by
  have h := c10_listing_walk pagesC2 pagesDead envC2 logC2 none pageOne rfl
  exact ⟨rfl, h.2.2.1.trans (by decide)⟩

end RunFiltered
